import Mathlib

/-!
Shallow embedding of `src/potions_3.py` (and the overlapping parts of
`src/potions_1.py`, whose `Ingredient`, `Herb`/`Mushroom`/`Root`,
potion classes, `Sorcerer.generate_potion`, `Sorcerer.generate_graph`
and `Botanist` bodies are textually identical to the corresponding
`potions_3.py` code).

Modelling conventions:
* Python object identity is modelled by an `id : Nat` field on ingredient
  instances; every construction site draws a fresh id, so structural
  equality of the embedded values coincides with Python `is`/default `==`
  on the instances the program creates.
* Python dynamic-typing failures (`TypeError`, `KeyError`, `ValueError`,
  `IndexError`) are modelled by `Except PyErr`.
* `random.choice(lst)` is modelled by an explicit draw `r : Nat` picking
  `lst[r % len(lst)]`; `random.randint(1, 5)` by `1 + r % 5`; the
  `poissonvariate` draw of `brew` by an explicit `draw : Nat` oracle
  (note: `random.poissonvariate` does not exist in the Python standard
  library, so importing `potions_3.py` itself raises `ImportError`; the
  per-function semantics below is that of the function bodies as written,
  with the random draws supplied externally as in spec section 6).
* Python `set` literals of freshly constructed (hence pairwise distinct)
  objects are modelled as lists in literal order; only the iteration
  order, which CPython leaves unspecified, is fixed by this choice.
* `print` calls and the write-only `MagickalPotion.active_instances`
  global are side effects no claim observes and are not modelled.
-/

namespace Potions

/-- The three quality tiers of `Ingredient.quality_options`. -/
inductive Quality
  | normal
  | premium
  | legendary
deriving DecidableEq

/-- Embeds `Ingredient.quality_options` (list literal, line 7 of potions_3.py). -/
def quality_options : List Quality := [.normal, .premium, .legendary]

/-- Embeds the `Ingredient.quality_costs` dict: normal 1, premium 3, legendary 5. -/
def quality_costs : Quality → Nat
  | .normal => 1
  | .premium => 3
  | .legendary => 5

/-- The three concrete subclasses of `Ingredient`. -/
inductive IngredientKind
  | Herb
  | Mushroom
  | Root
deriving DecidableEq

/-- An `Ingredient` instance: `id` models Python object identity,
`quantity` and `quality` are the `__init__` fields. Quantities in the
program are the positive literals of the recipes or `randint(1,5)`
results, hence `Nat`. -/
structure Ingredient where
  id : Nat
  kind : IngredientKind
  quantity : Nat
  quality : Quality
deriving DecidableEq

/-- Embeds `get_name` of the concrete subclass (`Herb.get_name` etc.). -/
def Ingredient.get_name (i : Ingredient) : String :=
  match i.kind with
  | .Herb => "Herb"
  | .Mushroom => "Mushroom"
  | .Root => "Root"

/-- Embeds `Ingredient.get_cost`: quantity times the quality unit cost. -/
def Ingredient.get_cost (i : Ingredient) : Nat :=
  i.quantity * quality_costs i.quality

/-- The three concrete subclasses of `MagickalPotion`. -/
inductive PotionKind
  | HealingPotion
  | InvisibilityPotion
  | StrengthPotion
deriving DecidableEq

/-- The fixed ingredient requirements of each `brew` body, in literal
order: (subclass, quantity, quality) for each element of the set literal. -/
def recipe : PotionKind → List (IngredientKind × Nat × Quality)
  | .HealingPotion =>
      [(.Herb, 3, .normal), (.Mushroom, 2, .normal), (.Root, 1, .normal)]
  | .InvisibilityPotion =>
      [(.Herb, 2, .premium), (.Mushroom, 1, .normal), (.Root, 1, .normal)]
  | .StrengthPotion =>
      [(.Herb, 2, .legendary), (.Mushroom, 3, .premium), (.Root, 2, .premium)]

/-- Instantiating the requirement list of one `brew` call with fresh
object identities starting at `fresh`. -/
def instantiate : Nat → List (IngredientKind × Nat × Quality) → List Ingredient
  | _, [] => []
  | fresh, (k, q, ql) :: rest => ⟨fresh, k, q, ql⟩ :: instantiate (fresh + 1) rest

/-- The ingredient-instance set one `brew()` call on an instance of the
given potion class returns, together with the next fresh identity. -/
def brewIngredients (p : PotionKind) (fresh : Nat) : List Ingredient × Nat :=
  (instantiate fresh (recipe p), fresh + (recipe p).length)

/-- A `MagickalPotion` instance: `__init__` sets `_extra_powers = 0`;
`brew` overwrites it with the poisson draw. -/
structure PotionInst where
  kind : PotionKind
  extra_powers : Nat
deriving DecidableEq

/-- A node of the networkx `DiGraph`: either a potion class object
(added by `add_nodes_from(potions)`) or an `Ingredient` instance
(added implicitly by `add_edge`). -/
inductive Node
  | potion (k : PotionKind)
  | ingredient (i : Ingredient)
deriving DecidableEq

/-- A networkx `DiGraph` as the program uses it: node list in insertion
order without duplicates, edge list in insertion order without
duplicates. -/
structure Graph where
  nodes : List Node
  edges : List (Node × Node)
deriving DecidableEq

/-- Models `DiGraph` node insertion: a node already present is not re-added. -/
def addNode (g : Graph) (n : Node) : Graph :=
  if n ∈ g.nodes then g else { g with nodes := g.nodes ++ [n] }

/-- Models `DiGraph.add_edge`: inserts both endpoints if absent, then the
edge if absent. -/
def addEdge (g : Graph) (u v : Node) : Graph :=
  let g1 := addNode (addNode g u) v
  if (u, v) ∈ g1.edges then g1 else { g1 with edges := g1.edges ++ [(u, v)] }

/-- Python error values the embedded functions can raise. -/
inductive PyErr
  | typeError (msg : String)
  | keyError (key : String)
  | valueError (msg : String)
  | indexError (msg : String)
deriving DecidableEq

/-- Runs `Sorcerer.generate_graph` as executed. Its loop body is
`ingredients = potion.brew()` where `potion` is bound to the class
object itself (the caller passes `[HealingPotion, InvisibilityPotion,
StrengthPotion]`); in Python 3 calling the plain function `brew` looked
up on the class with zero arguments raises
`TypeError: brew() missing 1 required positional argument: self` on the
first iteration, before any edge is added. The nodes added by
`add_nodes_from` before the loop are lost with the raise. -/
def generate_graph_run (potions : List PotionKind) : Except PyErr Graph :=
  let g1 := potions.foldl (fun g p => addNode g (.potion p)) ⟨[], []⟩
  match potions with
  | [] => .ok g1
  | _ :: _ =>
      .error (.typeError "brew missing 1 required positional argument self")

/-- The graph the construction loop of `generate_graph` (lines 108-117)
defines for a potion list: `add_nodes_from(potions)`, then for each
potion one brew of fresh ingredient instances and one `add_edge(potion,
ingredient)` per instance. This is the loop body evaluated with the
brew of an instance of the class (`potion().brew()`, as the same script
spells it at line 154 of potions_1.py); `generate_graph` as written
instead raises on the class call, see `generate_graph_run`. The
allocator claims quantify over this graph, the only one the program
ever builds from its fixed recipe set. -/
def buildGraph (potions : List PotionKind) : Graph :=
  let g0 := potions.foldl (fun g p => addNode g (.potion p)) ⟨[], []⟩
  (potions.foldl
    (fun (acc : Graph × Nat) p =>
      let brewed := brewIngredients p acc.2
      (brewed.1.foldl (fun g i => addEdge g (.potion p) (.ingredient i)) acc.1,
       brewed.2))
    (g0, 0)).1

/-- The potion list of the script (line 186). -/
def scriptPotions : List PotionKind :=
  [.HealingPotion, .InvisibilityPotion, .StrengthPotion]

/-- The dependency graph of the program's fixed recipe set. -/
def potionGraph : Graph := buildGraph scriptPotions

/-- Out-neighbours of a node (`DiGraph.successors`), in edge insertion
order. -/
def succsOf (g : Graph) (n : Node) : List Node :=
  (g.edges.filter (fun e => e.1 = n)).map (fun e => e.2)

/-- In-neighbours of a node (`DiGraph.predecessors`), in edge insertion
order. -/
def predsOf (g : Graph) (n : Node) : List Node :=
  (g.edges.filter (fun e => e.2 = n)).map (fun e => e.1)

/-- In-degree of a node. -/
def indeg (g : Graph) (n : Node) : Nat :=
  (g.edges.filter (fun e => e.2 = n)).length

/-- Removes and returns the last element of a list (`list.pop()`). -/
def popLast : List Node → Option (List Node × Node)
  | [] => none
  | [x] => some ([], x)
  | x :: xs =>
      match popLast xs with
      | none => none
      | some (ys, y) => some (x :: ys, y)

/-- The loop of networkx `topological_sort` (Kahn): pop the last
zero-in-degree node, decrement the remaining in-degree of each of its
successors, append those that reach zero, and yield the popped node.
`fuel` bounds the iteration count; `(g.nodes).length` suffices since
each node is yielded at most once. -/
def topoLoop (edges : List (Node × Node)) :
    Nat → List Node → (Node → Nat) → List Node → List Node
  | 0, _, _, out => out
  | fuel + 1, zero, degm, out =>
      match popLast zero with
      | none => out
      | some (zero1, node) =>
          let step :=
            ((edges.filter (fun e => e.1 = node)).map (fun e => e.2)).foldl
              (fun (acc : (Node → Nat) × List Node) c =>
                let d := acc.1 c - 1
                (fun x => if x = c then d else acc.1 x,
                 if d = 0 then acc.2 ++ [c] else acc.2))
              (degm, zero1)
          topoLoop edges fuel step.2 step.1 (out ++ [node])

/-- Models `list(nx.topological_sort(potion_graph))`: every node of the graph
in a topological order, zero-in-degree nodes held in a stack seeded in
node insertion order. -/
def topological_sort (g : Graph) : List Node :=
  topoLoop g.edges g.nodes.length
    (g.nodes.filter (fun v => indeg g v = 0))
    (fun v => indeg g v) []

/-- An inventory: Python dict from ingredient display name to the list
of instances, keys in insertion order. -/
abbrev Inv : Type := List (String × List Ingredient)

/-- Dict lookup: `inventory[name]` as an `Option`. -/
def lookupInv (inv : Inv) (name : String) : Option (List Ingredient) :=
  match inv with
  | [] => none
  | p :: rest => if p.1 = name then some p.2 else lookupInv rest name

/-- Replacing the value stored at an existing key. -/
def setInv (inv : Inv) (name : String) (l : List Ingredient) : Inv :=
  match inv with
  | [] => []
  | p :: rest => if p.1 = name then (p.1, l) :: rest else p :: setInv rest name l

/-- Models `list.remove(x)`: drop the first occurrence (Python `==` on these
instances is identity, modelled by structural equality with ids). -/
def removeFirst (l : List Ingredient) (i : Ingredient) : List Ingredient :=
  match l with
  | [] => []
  | x :: xs => if x = i then xs else x :: removeFirst xs i

/-- The `Sorcerer`: `__init__` makes an empty `inventory` dict and the
zeroed `potion_count` dict. -/
structure Sorcerer where
  inventory : Inv
  potion_count : List (PotionKind × Nat)
deriving DecidableEq

/-- Embeds `Sorcerer()` construction (lines 93-95). -/
def Sorcerer.init : Sorcerer :=
  { inventory := []
    potion_count := [(.HealingPotion, 0), (.InvisibilityPotion, 0), (.StrengthPotion, 0)] }

/-- Models `self.inventory[ingredient.get_name()].remove(ingredient)`
(line 142): raises `KeyError` when the name is not a key and `ValueError`
when the instance is not in the list. -/
def inventoryRemove (s : Sorcerer) (i : Ingredient) : Except PyErr Sorcerer :=
  match lookupInv s.inventory i.get_name with
  | none => .error (.keyError i.get_name)
  | some l =>
      if i ∈ l then
        .ok { s with inventory := setInv s.inventory i.get_name (removeFirst l i) }
      else
        .error (.valueError "list remove x not in list")

/-- Updating one tier of the `herbs_used` dict. -/
def spendBudget (hu : Quality → Int) (q : Quality) (cost : Int) : Quality → Int :=
  fun x => if x = q then hu x - cost else hu x

/-- The `for ingredient in ingredients` loop of
`Sorcerer.consume_ingredient` (lines 137-143) over the successor list:
a potion-class successor would have no `get_cost`/`quality` attribute
(`TypeError`-class failure); for an ingredient instance the cost is
deducted, and the instance removed from `self.inventory`, only when
`herbs_used[quality] >= herb_cost`. -/
def consumeLoop : List Node → Sorcerer → (Quality → Int) →
    Except PyErr (Sorcerer × (Quality → Int))
  | [], s, hu => .ok (s, hu)
  | n :: rest, s, hu =>
      match n with
      | .potion _ => .error (.typeError "class object has no attribute get_cost")
      | .ingredient ing =>
          if (ing.get_cost : Int) ≤ hu ing.quality then
            match inventoryRemove s ing with
            | .error e => .error e
            | .ok s1 =>
                consumeLoop rest s1 (spendBudget hu ing.quality (ing.get_cost : Int))
          else
            consumeLoop rest s hu

/-- Embeds `Sorcerer.consume_ingredient` (lines 135-145): iterates
`potion_graph.successors(ingredient_class)` and returns the updated
`herbs_used`; the inventory mutation is threaded through the returned
`Sorcerer`. -/
def Sorcerer.consume_ingredient (s : Sorcerer) (ingredient_class : Node)
    (g : Graph) (herbs_used : Quality → Int) :
    Except PyErr (Sorcerer × (Quality → Int)) :=
  consumeLoop (succsOf g ingredient_class) s herbs_used

/-- The `for ingredient_class in available_ingredients` loop of
`optimize_potions` (lines 128-129): successive `consume_ingredient`
calls threading `herbs_used`. -/
def consumePreds : List Node → Sorcerer → Graph → (Quality → Int) →
    Except PyErr (Sorcerer × (Quality → Int))
  | [], s, _, hu => .ok (s, hu)
  | ic :: rest, s, g, hu =>
      match s.consume_ingredient ic g hu with
      | .error e => .error e
      | .ok (s1, hu1) => consumePreds rest s1 g hu1

/-- The `for potion_class in sorted_potions` loop of `optimize_potions`
(lines 124-131). Every node of the topological sort is iterated:
`potion = potion_class()` on a potion-class node builds an instance
(`__init__` sets extra powers 0); on an `Ingredient`-instance node the
call raises `TypeError` (an instance is not callable). For a potion
node the predecessors are then consumed and the instance appended. -/
def optimizeLoop : List Node → Sorcerer → (Quality → Int) → List PotionInst →
    Graph → Except PyErr (Sorcerer × List PotionInst)
  | [], s, _, acc, _ => .ok (s, acc)
  | n :: rest, s, hu, acc, g =>
      match n with
      | .ingredient _ => .error (.typeError "Ingredient object is not callable")
      | .potion k =>
          match consumePreds (predsOf g (.potion k)) s g hu with
          | .error e => .error e
          | .ok (s1, hu1) => optimizeLoop rest s1 hu1 (acc ++ [⟨k, 0⟩]) g

/-- Embeds `Sorcerer.optimize_potions` (lines 119-133): topologically sort the
graph, reset `herbs_used` to 0 for every quality, run the loop, return
the `optimized_potions` list (the mutated inventory is threaded through
the returned `Sorcerer`). -/
def Sorcerer.optimize_potions (s : Sorcerer) (g : Graph) :
    Except PyErr (Sorcerer × List PotionInst) :=
  optimizeLoop (topological_sort g) s (fun _ => 0) [] g

/-- Embeds `Sorcerer.generate_potion` (lines 97-106):
`choice(list(potion_graph.nodes))` picks `nodes[pick % len]` (uniform
over ALL nodes; `choice` on an empty list raises `IndexError`);
`potion_class()` on an `Ingredient`-instance node raises `TypeError`;
on a potion-class node the instance is built, `brew` draws the poisson
oracle `draw` into its extra powers and builds fresh ingredient
instances that are only printed, and the potion alone is returned. -/
def Sorcerer.generate_potion (g : Graph) (pick : Nat) (draw : Nat) :
    Except PyErr PotionInst :=
  match g.nodes with
  | [] => .error (.indexError "cannot choose from an empty sequence")
  | _ :: _ =>
      match g.nodes.getD (pick % g.nodes.length) (.potion .HealingPotion) with
      | .ingredient _ => .error (.typeError "Ingredient object is not callable")
      | .potion k => .ok ⟨k, draw⟩

/-- The `Botanist`: `__init__` makes an empty `inventory` dict. -/
structure Botanist where
  inventory : Inv
deriving DecidableEq

/-- Embeds `Botanist()` construction (lines 148-149). -/
def Botanist.init : Botanist := ⟨[]⟩

/-- Embeds `Botanist.add_ingredient` (lines 151-154): create the per-name list
when the key is absent, then append. -/
def Botanist.add_ingredient (b : Botanist) (i : Ingredient) : Botanist :=
  match lookupInv b.inventory i.get_name with
  | none => ⟨b.inventory ++ [(i.get_name, [i])]⟩
  | some l => ⟨setInv b.inventory i.get_name (l ++ [i])⟩

/-- Embeds `Botanist.remove_ingredient` (lines 156-159): guarded by
`name in inventory` and `ingredient in inventory[name]`, then
`list.remove` of the first occurrence; otherwise no effect. -/
def Botanist.remove_ingredient (b : Botanist) (i : Ingredient) : Botanist :=
  match lookupInv b.inventory i.get_name with
  | none => b
  | some l =>
      if i ∈ l then ⟨setInv b.inventory i.get_name (removeFirst l i)⟩ else b

/-- Whether the instance is present in the inventory in the sense of the
two guards of `remove_ingredient`. -/
def Botanist.holds (b : Botanist) (i : Ingredient) : Bool :=
  match lookupInv b.inventory i.get_name with
  | none => false
  | some l => i ∈ l

/-- Number of occurrences of the instance in its name entry. -/
def Botanist.occurrences (b : Botanist) (i : Ingredient) : Nat :=
  match lookupInv b.inventory i.get_name with
  | none => 0
  | some l => l.count i

/-- Number of instances stocked under a name (`len(inventory[name])`
with 0 for an absent key, as `show_inventory` would report). -/
def Botanist.stock (b : Botanist) (name : String) : Nat :=
  match lookupInv b.inventory name with
  | none => 0
  | some l => l.length

/-- The ingredient instance `generate_ingredient` builds from its three
random draws (`choice` over `[Herb, Mushroom, Root]`, `randint(1, 5)`,
`choice` over `quality_options`) and the fresh object identity. -/
def mkGenerated (freshId kindDraw quantDraw qualDraw : Nat) : Ingredient :=
  { id := freshId
    kind := [IngredientKind.Herb, .Mushroom, .Root].getD (kindDraw % 3) .Herb
    quantity := 1 + quantDraw % 5
    quality := quality_options.getD (qualDraw % 3) .normal }

/-- Embeds `Botanist.generate_ingredient` (lines 161-170): builds the random
ingredient, `add_ingredient`s it, prints it, and falls off the end of
the function body — the Python return value is `None`, modelled as the
`none` second component. -/
def Botanist.generate_ingredient (b : Botanist)
    (freshId kindDraw quantDraw qualDraw : Nat) :
    Botanist × Option Ingredient :=
  (b.add_ingredient (mkGenerated freshId kindDraw quantDraw qualDraw), none)

/-- The two inventory-owning objects of the script: the `Sorcerer` of
line 183 and the `Botanist` of line 197. -/
structure World where
  sorcerer : Sorcerer
  botanist : Botanist
deriving DecidableEq

/-- Runs `sorcerer.optimize_potions(potion_graph)` in the two-object
world: only the sorcerer is passed to and threaded through the call. -/
def World.optimize_potions (w : World) (g : Graph) :
    Except PyErr (World × List PotionInst) :=
  match w.sorcerer.optimize_potions g with
  | .error e => .error e
  | .ok (s1, ps) => .ok ({ w with sorcerer := s1 }, ps)

/-- Key list of an inventory dict, in insertion order. -/
def invKeys (inv : Inv) : List String := inv.map (fun p => p.1)

/-- Entry of an inventory dict under a name, the empty list when the
name is not a key. -/
def invEntry (inv : Inv) (nm : String) : List Ingredient :=
  (lookupInv inv nm).getD []

/-!
General lemmas about the embedded operations.
-/

theorem removeFirst_sublist (l : List Ingredient) (i : Ingredient) :
    List.Sublist (removeFirst l i) l := by
  induction l with
  | nil => simp [removeFirst]
  | cons x xs ih =>
      by_cases hx : x = i
      · simp only [removeFirst, hx, if_pos]
        exact List.sublist_cons_self i xs
      · simp only [removeFirst, hx, if_neg, not_false_iff]
        exact ih.cons₂ x

theorem removeFirst_of_not_mem (l : List Ingredient) (i : Ingredient)
    (h : i ∉ l) : removeFirst l i = l := by
  induction l with
  | nil => rfl
  | cons x xs ih =>
      have hx : ¬ x = i := fun hxi => h (hxi ▸ List.mem_cons_self x xs)
      have hxs : i ∉ xs := fun hm => h (List.mem_cons_of_mem x hm)
      simp [removeFirst, hx, ih hxs]

theorem count_removeFirst (l : List Ingredient) (i : Ingredient) (h : i ∈ l) :
    (removeFirst l i).count i = l.count i - 1 := by
  induction l with
  | nil => cases h
  | cons x xs ih =>
      by_cases hx : x = i
      · subst hx
        simp [removeFirst, List.count_cons_self]
      · have hmem : i ∈ xs := by
          rcases List.mem_cons.mp h with h1 | h1
          · exact absurd h1.symm hx
          · exact h1
        have hne : i ≠ x := fun hix => hx hix.symm
        simp [removeFirst, hx, List.count_cons_of_ne hne, ih hmem]

theorem lookupInv_setInv_self (inv : Inv) (name : String) (l : List Ingredient) :
    lookupInv (setInv inv name l) name = (lookupInv inv name).map (fun _ => l) := by
  induction inv with
  | nil => rfl
  | cons p rest ih =>
      by_cases hp : p.1 = name
      · simp [setInv, lookupInv, hp]
      · simp [setInv, lookupInv, hp, ih]

theorem lookupInv_setInv_ne (inv : Inv) (name nm : String) (l : List Ingredient)
    (h : nm ≠ name) :
    lookupInv (setInv inv name l) nm = lookupInv inv nm := by
  induction inv with
  | nil => rfl
  | cons p rest ih =>
      by_cases hp : p.1 = name
      · have hne : ¬ name = nm := fun hcon => h hcon.symm
        simp [setInv, lookupInv, hp, hne]
      · simp [setInv, lookupInv, hp, ih]

theorem invKeys_setInv (inv : Inv) (name : String) (l : List Ingredient) :
    invKeys (setInv inv name l) = invKeys inv := by
  induction inv with
  | nil => rfl
  | cons p rest ih =>
      by_cases hp : p.1 = name
      · simp [setInv, invKeys, hp]
      · simp only [setInv, invKeys, hp, if_neg, not_false_iff, List.map_cons,
          List.cons.injEq, true_and]
        simpa [invKeys] using ih

theorem inventoryRemove_shrinks (s s1 : Sorcerer) (i : Ingredient)
    (h : inventoryRemove s i = .ok s1) :
    invKeys s1.inventory = invKeys s.inventory ∧
      ∀ nm, List.Sublist (invEntry s1.inventory nm) (invEntry s.inventory nm) := by
  unfold inventoryRemove at h
  cases hl : lookupInv s.inventory i.get_name with
  | none => rw [hl] at h; cases h
  | some l =>
      rw [hl] at h
      by_cases hm : i ∈ l
      · simp only [hm, if_pos, Except.ok.injEq] at h
        subst h
        refine ⟨invKeys_setInv _ _ _, fun nm => ?_⟩
        by_cases hnm : nm = i.get_name
        · subst hnm
          simp only [invEntry, lookupInv_setInv_self, hl, Option.map_some,
            Option.getD_some]
          exact removeFirst_sublist l i
        · simp only [invEntry, lookupInv_setInv_ne _ _ _ _ hnm]
          exact List.Sublist.refl _
      · simp [hm] at h

theorem consumeLoop_shrinks (l : List Node) :
    ∀ (s : Sorcerer) (hu : Quality → Int) r,
      consumeLoop l s hu = .ok r →
      invKeys r.1.inventory = invKeys s.inventory ∧
        ∀ nm, List.Sublist (invEntry r.1.inventory nm) (invEntry s.inventory nm) := by
  induction l with
  | nil =>
      intro s hu r h
      simp only [consumeLoop, Except.ok.injEq] at h
      subst h
      exact ⟨rfl, fun nm => List.Sublist.refl _⟩
  | cons n rest ih =>
      intro s hu r h
      cases n with
      | potion k => simp [consumeLoop] at h
      | ingredient ing =>
          by_cases hguard : (ing.get_cost : Int) ≤ hu ing.quality
          · simp only [consumeLoop, hguard, if_pos] at h
            cases hrem : inventoryRemove s ing with
            | error e => rw [hrem] at h; cases h
            | ok s1 =>
                rw [hrem] at h
                obtain ⟨hk, he⟩ := ih s1 _ r h
                obtain ⟨hk2, he2⟩ := inventoryRemove_shrinks s s1 ing hrem
                exact ⟨hk.trans hk2, fun nm => (he nm).trans (he2 nm)⟩
          · simp only [consumeLoop, hguard, if_neg, not_false_iff] at h
            exact ih s hu r h

theorem consumePreds_shrinks (l : List Node) :
    ∀ (s : Sorcerer) (g : Graph) (hu : Quality → Int) r,
      consumePreds l s g hu = .ok r →
      invKeys r.1.inventory = invKeys s.inventory ∧
        ∀ nm, List.Sublist (invEntry r.1.inventory nm) (invEntry s.inventory nm) := by
  induction l with
  | nil =>
      intro s g hu r h
      simp only [consumePreds, Except.ok.injEq] at h
      subst h
      exact ⟨rfl, fun nm => List.Sublist.refl _⟩
  | cons ic rest ih =>
      intro s g hu r h
      cases hc : s.consume_ingredient ic g hu with
      | error e => rw [consumePreds, hc] at h; cases h
      | ok p =>
          rw [consumePreds, hc] at h
          obtain ⟨hk, he⟩ := ih p.1 g p.2 r h
          obtain ⟨hk2, he2⟩ := consumeLoop_shrinks _ s hu p hc
          exact ⟨hk.trans hk2, fun nm => (he nm).trans (he2 nm)⟩

theorem optimizeLoop_shrinks (l : List Node) :
    ∀ (s : Sorcerer) (hu : Quality → Int) (acc : List PotionInst) (g : Graph) r,
      optimizeLoop l s hu acc g = .ok r →
      invKeys r.1.inventory = invKeys s.inventory ∧
        ∀ nm, List.Sublist (invEntry r.1.inventory nm) (invEntry s.inventory nm) := by
  induction l with
  | nil =>
      intro s hu acc g r h
      simp only [optimizeLoop, Except.ok.injEq] at h
      subst h
      exact ⟨rfl, fun nm => List.Sublist.refl _⟩
  | cons n rest ih =>
      intro s hu acc g r h
      cases n with
      | ingredient ing => simp [optimizeLoop] at h
      | potion k =>
          cases hc : consumePreds (predsOf g (.potion k)) s g hu with
          | error e => rw [optimizeLoop, hc] at h; cases h
          | ok p =>
              rw [optimizeLoop, hc] at h
              obtain ⟨hk, he⟩ := ih p.1 p.2 (acc ++ [⟨k, 0⟩]) g r h
              obtain ⟨hk2, he2⟩ := consumePreds_shrinks _ s g hu p hc
              exact ⟨hk.trans hk2, fun nm => (he nm).trans (he2 nm)⟩

theorem consumeLoop_budget (l : List Node) :
    ∀ (s : Sorcerer) (hu : Quality → Int) r,
      consumeLoop l s hu = .ok r →
      ∀ q, r.2 q ≤ hu q ∧ (0 ≤ hu q → 0 ≤ r.2 q) := by
  induction l with
  | nil =>
      intro s hu r h
      simp only [consumeLoop, Except.ok.injEq] at h
      subst h
      exact fun q => ⟨le_refl _, fun h0 => h0⟩
  | cons n rest ih =>
      intro s hu r h
      cases n with
      | potion k => simp [consumeLoop] at h
      | ingredient ing =>
          by_cases hguard : (ing.get_cost : Int) ≤ hu ing.quality
          · simp only [consumeLoop, hguard, if_pos] at h
            cases hrem : inventoryRemove s ing with
            | error e => rw [hrem] at h; cases h
            | ok s1 =>
                rw [hrem] at h
                intro q
                have hrec := ih s1 _ r h q
                have hcost : (0 : Int) ≤ (ing.get_cost : Int) := Int.ofNat_nonneg _
                by_cases hq : q = ing.quality
                · subst hq
                  have hspend : spendBudget hu ing.quality (ing.get_cost : Int) ing.quality
                      = hu ing.quality - (ing.get_cost : Int) := by
                    simp [spendBudget]
                  constructor
                  · exact hrec.1.trans (by rw [hspend]; omega)
                  · intro _
                    refine hrec.2 ?_
                    rw [hspend]
                    omega
                · have hspend : spendBudget hu ing.quality (ing.get_cost : Int) q
                      = hu q := by
                    simp [spendBudget, hq]
                  exact ⟨hrec.1.trans (le_of_eq hspend),
                    fun h0 => hrec.2 (hspend ▸ h0)⟩
          · simp only [consumeLoop, hguard, if_neg, not_false_iff] at h
            exact ih s hu r h

theorem consumePreds_budget (l : List Node) :
    ∀ (s : Sorcerer) (g : Graph) (hu : Quality → Int) r,
      consumePreds l s g hu = .ok r →
      ∀ q, r.2 q ≤ hu q ∧ (0 ≤ hu q → 0 ≤ r.2 q) := by
  induction l with
  | nil =>
      intro s g hu r h
      simp only [consumePreds, Except.ok.injEq] at h
      subst h
      exact fun q => ⟨le_refl _, fun h0 => h0⟩
  | cons ic rest ih =>
      intro s g hu r h
      cases hc : s.consume_ingredient ic g hu with
      | error e => rw [consumePreds, hc] at h; cases h
      | ok p =>
          rw [consumePreds, hc] at h
          intro q
          have h1 := consumeLoop_budget _ s hu p hc q
          have h2 := ih p.1 g p.2 r h q
          exact ⟨h2.1.trans h1.1, fun h0 => h2.2 (h1.2 h0)⟩

theorem world_botanist_frame (w : World) (g : Graph) (r : World × List PotionInst)
    (h : w.optimize_potions g = .ok r) : r.1.botanist = w.botanist := by
  unfold World.optimize_potions at h
  cases hs : w.sorcerer.optimize_potions g with
  | error e => rw [hs] at h; cases h
  | ok p =>
      rw [hs] at h
      simp only [Except.ok.injEq] at h
      subst h
      rfl

theorem generate_potion_mod (g : Graph) (pick draw : Nat) :
    Sorcerer.generate_potion g pick draw =
      Sorcerer.generate_potion g (pick % g.nodes.length) draw := by
  unfold Sorcerer.generate_potion
  cases hn : g.nodes with
  | nil => rfl
  | cons a l =>
      rw [Nat.mod_mod_of_dvd pick (dvd_refl (a :: l).length)]

/-!
Claim theorems.
-/

/-- Claim C1: the spec says the allocation pass `Sorcerer.optimize_potions`
(with `consume_ingredient`) completes without raising on every graph the
builder produces and every inventory, treating a missing inventory name as
zero stock. The code does neither: on the program's potion graph the pass
raises `TypeError` as soon as the topological order reaches an
ingredient-instance node (every sorted node is called like a class), and
`consume_ingredient` raises `KeyError` for a missing inventory name as
soon as a tier budget covers a cost, instead of skipping. -/
theorem C1_allocation_pass_raises :
    Sorcerer.init.optimize_potions potionGraph =
      .error (.typeError "Ingredient object is not callable")
  ∧ Sorcerer.init.consume_ingredient (.potion .HealingPotion) potionGraph
      (fun _ => 5) = .error (.keyError "Herb") :=
  ⟨rfl, rfl⟩

/-- Claim C2: the spec says a pass started from the reset quality budget
(all tiers 0) returns a potion instance per kind and leaves the inventory
unchanged. The code instead raises `TypeError` before returning anything;
the inventory-frame half is real: with every tier at 0 the consumption
loop over any potion node of the graph removes nothing and returns the
sorcerer state unchanged. -/
theorem C2_fresh_run_raises_before_returning :
    Sorcerer.init.optimize_potions potionGraph =
      .error (.typeError "Ingredient object is not callable")
  ∧ consumeLoop (succsOf potionGraph (.potion .HealingPotion)) Sorcerer.init
      (fun _ => 0) = .ok (Sorcerer.init, fun _ => 0)
  ∧ consumeLoop (succsOf potionGraph (.potion .InvisibilityPotion)) Sorcerer.init
      (fun _ => 0) = .ok (Sorcerer.init, fun _ => 0)
  ∧ consumeLoop (succsOf potionGraph (.potion .StrengthPotion)) Sorcerer.init
      (fun _ => 0) = .ok (Sorcerer.init, fun _ => 0) :=
  ⟨rfl, rfl, rfl, rfl⟩

/-- Claim C3 counterexample: `generate_potion` does not select only
potion-kind nodes: `choice(list(potion_graph.nodes))` ranges over all 12
nodes, and the draw picking index 3 selects the Herb(3, normal)
ingredient-instance node and raises `TypeError` instead of returning a
potion with its recipe instances. -/
theorem C3_counterexample :
    Sorcerer.generate_potion potionGraph 3 0 =
      .error (.typeError "Ingredient object is not callable")
  ∧ potionGraph.nodes.getD (3 % potionGraph.nodes.length)
      (.potion .HealingPotion) = .ingredient ⟨0, .Herb, 3, .normal⟩ :=
  ⟨rfl, rfl⟩

/-- Claim C3 as amended: `generate_potion` selects uniformly among ALL 12
nodes of the program's graph (each node at exactly one residue of the
uniform index draw); a draw landing on one of the three potion-kind nodes
instantiates that potion, stores the poisson draw as its extra powers and
returns the potion alone (the recipe instances are printed, not
returned); a draw landing on any of the nine ingredient-instance nodes
raises `TypeError`. -/
theorem C3_generate_potion_picks_any_node (pick draw : Nat) :
    (pick % 12 = 0 → Sorcerer.generate_potion potionGraph pick draw
        = .ok ⟨.HealingPotion, draw⟩)
  ∧ (pick % 12 = 1 → Sorcerer.generate_potion potionGraph pick draw
        = .ok ⟨.InvisibilityPotion, draw⟩)
  ∧ (pick % 12 = 2 → Sorcerer.generate_potion potionGraph pick draw
        = .ok ⟨.StrengthPotion, draw⟩)
  ∧ (3 ≤ pick % 12 → Sorcerer.generate_potion potionGraph pick draw
        = .error (.typeError "Ingredient object is not callable")) := by
  have hlen : potionGraph.nodes.length = 12 := rfl
  refine ⟨?_, ?_, ?_, ?_⟩ <;> intro h <;> rw [generate_potion_mod, hlen]
  · rw [h]; rfl
  · rw [h]; rfl
  · rw [h]; rfl
  · have hlt : pick % 12 < 12 := Nat.mod_lt pick (by norm_num)
    have hc : pick % 12 = 3 ∨ pick % 12 = 4 ∨ pick % 12 = 5 ∨ pick % 12 = 6 ∨
        pick % 12 = 7 ∨ pick % 12 = 8 ∨ pick % 12 = 9 ∨ pick % 12 = 10 ∨
        pick % 12 = 11 := by omega
    rcases hc with hc | hc | hc | hc | hc | hc | hc | hc | hc <;> rw [hc] <;> rfl

/-- Witness for C3: the draw with residue 2 returns the strength potion
carrying the supplied poisson draw. -/
theorem C3_witness :
    Sorcerer.generate_potion potionGraph 14 9 = .ok ⟨.StrengthPotion, 9⟩ :=
  (C3_generate_potion_picks_any_node 14 9).2.2.1 rfl

/-- Claim C4: the spec says `generate_graph` produces one node per potion
kind plus one per recipe requirement and one edge per requirement. The
code never produces that graph: `potion.brew()` is called on the class
object and raises `TypeError` on the first loop iteration. The graph its
loop defines over the recipe data (see `buildGraph`) does have the
claimed shape for the program's recipe set: 3 potion nodes plus 9
requirement nodes and 9 edges. -/
theorem C4_generate_graph_raises :
    generate_graph_run scriptPotions =
      .error (.typeError "brew missing 1 required positional argument self")
  ∧ (buildGraph scriptPotions).nodes.length = 12
  ∧ ((buildGraph scriptPotions).nodes.filter
      (fun n => match n with | .potion _ => true | .ingredient _ => false)).length = 3
  ∧ (buildGraph scriptPotions).edges.length = 9 := by
  exact ⟨rfl, by decide, by decide, by decide⟩

/-- Claim C5: the node order `optimize_potions` traverses,
`list(nx.topological_sort(potion_graph))`, respects every edge of the
program's potion graph: the potion-kind node that owns a requirement
comes strictly before that ingredient-requirement node. -/
theorem C5_topological_order_respects_edges (u v : Node)
    (h : (u, v) ∈ potionGraph.edges) :
    (topological_sort potionGraph).indexOf u <
      (topological_sort potionGraph).indexOf v := by
  have he : potionGraph.edges =
      [(.potion .HealingPotion, .ingredient ⟨0, .Herb, 3, .normal⟩),
       (.potion .HealingPotion, .ingredient ⟨1, .Mushroom, 2, .normal⟩),
       (.potion .HealingPotion, .ingredient ⟨2, .Root, 1, .normal⟩),
       (.potion .InvisibilityPotion, .ingredient ⟨3, .Herb, 2, .premium⟩),
       (.potion .InvisibilityPotion, .ingredient ⟨4, .Mushroom, 1, .normal⟩),
       (.potion .InvisibilityPotion, .ingredient ⟨5, .Root, 1, .normal⟩),
       (.potion .StrengthPotion, .ingredient ⟨6, .Herb, 2, .legendary⟩),
       (.potion .StrengthPotion, .ingredient ⟨7, .Mushroom, 3, .premium⟩),
       (.potion .StrengthPotion, .ingredient ⟨8, .Root, 2, .premium⟩)] := rfl
  rw [he] at h
  fin_cases h <;> decide

/-- Witness for C5 at the first edge of the graph. -/
theorem C5_witness :
    (topological_sort potionGraph).indexOf (.potion .HealingPotion) <
      (topological_sort potionGraph).indexOf
        (.ingredient ⟨0, .Herb, 3, .normal⟩) :=
  C5_topological_order_respects_edges _ _ (by decide)

/-- Claim C6: the allocation pass works on the Sorcerer's own inventory,
which `Sorcerer.__init__` creates empty and to which no operation ever
adds an entry (`consume_ingredient` and `optimize_potions` can only keep
the key list and shrink per-name instance lists), while the Botanist's
inventory is untouched by the pass. -/
theorem C6_sorcerer_inventory_frame :
    Sorcerer.init.inventory = []
  ∧ (∀ (s : Sorcerer) (n : Node) (g : Graph) (hu : Quality → Int) r,
      s.consume_ingredient n g hu = .ok r →
      invKeys r.1.inventory = invKeys s.inventory ∧
        ∀ nm, List.Sublist (invEntry r.1.inventory nm) (invEntry s.inventory nm))
  ∧ (∀ (s : Sorcerer) (g : Graph) r,
      s.optimize_potions g = .ok r →
      invKeys r.1.inventory = invKeys s.inventory ∧
        ∀ nm, List.Sublist (invEntry r.1.inventory nm) (invEntry s.inventory nm))
  ∧ (∀ (w : World) (g : Graph) r,
      w.optimize_potions g = .ok r → r.1.botanist = w.botanist) := by
  refine ⟨rfl, ?_, ?_, ?_⟩
  · intro s n g hu r h
    exact consumeLoop_shrinks _ s hu r h
  · intro s g r h
    exact optimizeLoop_shrinks _ s _ [] g r h
  · intro w g r h
    exact world_botanist_frame w g r h

/-- Witness for C6 on the empty graph, where the pass succeeds. -/
theorem C6_witness :
    List.Sublist (invEntry Sorcerer.init.inventory "Herb")
      (invEntry Sorcerer.init.inventory "Herb")
  ∧ (World.mk Sorcerer.init Botanist.init).botanist = Botanist.init := by
  constructor
  · exact (C6_sorcerer_inventory_frame.2.1 Sorcerer.init
      (Node.potion .HealingPotion) ⟨[], []⟩ (fun _ => 0)
      (Sorcerer.init, fun _ => 0) rfl).2 "Herb"
  · exact C6_sorcerer_inventory_frame.2.2.2 ⟨Sorcerer.init, Botanist.init⟩
      ⟨[], []⟩ (⟨Sorcerer.init, Botanist.init⟩, []) rfl

/-- Claim C7 counterexample: `generate_ingredient` adds the generated
ingredient to the inventory but has no return statement, so its Python
return value is `None`, not the ingredient the spec says it returns. -/
theorem C7_counterexample :
    (Botanist.init.generate_ingredient 0 0 0 0).2 = none
  ∧ (Botanist.init.generate_ingredient 0 0 0 0).2 ≠ some (mkGenerated 0 0 0 0)
  ∧ (Botanist.init.generate_ingredient 0 0 0 0).1.stock "Herb" = 1 :=
  ⟨rfl, by decide, by decide⟩

/-- Claim C7 as amended: every `generate_ingredient` call builds an
ingredient whose kind is chosen by the uniform index draw over exactly
Herb, Mushroom and Root (one kind per residue), whose quantity lies in
[1, 5], and whose quality is chosen by the uniform index draw over
exactly the three quality options; the ingredient is added to the
Botanist's inventory, and the call returns `None` rather than the
ingredient. -/
theorem C7_generate_ingredient_spec (b : Botanist)
    (freshId kindDraw quantDraw qualDraw : Nat) :
    (b.generate_ingredient freshId kindDraw quantDraw qualDraw).2 = none
  ∧ (b.generate_ingredient freshId kindDraw quantDraw qualDraw).1
      = b.add_ingredient (mkGenerated freshId kindDraw quantDraw qualDraw)
  ∧ 1 ≤ (mkGenerated freshId kindDraw quantDraw qualDraw).quantity
  ∧ (mkGenerated freshId kindDraw quantDraw qualDraw).quantity ≤ 5
  ∧ (mkGenerated freshId kindDraw quantDraw qualDraw).kind
      ∈ [IngredientKind.Herb, .Mushroom, .Root]
  ∧ (mkGenerated freshId kindDraw quantDraw qualDraw).quality ∈ quality_options
  ∧ (mkGenerated freshId 0 quantDraw qualDraw).kind = .Herb
  ∧ (mkGenerated freshId 1 quantDraw qualDraw).kind = .Mushroom
  ∧ (mkGenerated freshId 2 quantDraw qualDraw).kind = .Root
  ∧ (mkGenerated freshId kindDraw quantDraw 0).quality = .normal
  ∧ (mkGenerated freshId kindDraw quantDraw 1).quality = .premium
  ∧ (mkGenerated freshId kindDraw quantDraw 2).quality = .legendary := by
  have h3 : kindDraw % 3 = 0 ∨ kindDraw % 3 = 1 ∨ kindDraw % 3 = 2 := by omega
  have hq3 : qualDraw % 3 = 0 ∨ qualDraw % 3 = 1 ∨ qualDraw % 3 = 2 := by omega
  refine ⟨rfl, rfl, ?_, ?_, ?_, ?_, rfl, rfl, rfl, rfl, rfl, rfl⟩
  · show 1 ≤ 1 + quantDraw % 5
    omega
  · show 1 + quantDraw % 5 ≤ 5
    omega
  · rcases h3 with h | h | h <;> simp [mkGenerated, h]
  · rcases hq3 with h | h | h <;> simp [mkGenerated, quality_options, h]

/-- Claim C8 counterexample: the inventory state reachable by adding the
same ingredient instance twice breaks the idempotence part of the claim
as quantified over every inventory state: the Herb count is 1 after the
first removal and 0 after the second, so the two counts differ. -/
theorem C8_counterexample :
    (((Botanist.init.add_ingredient ⟨0, .Herb, 1, .normal⟩).add_ingredient
        ⟨0, .Herb, 1, .normal⟩).remove_ingredient
        ⟨0, .Herb, 1, .normal⟩).stock "Herb" = 1
  ∧ ((((Botanist.init.add_ingredient ⟨0, .Herb, 1, .normal⟩).add_ingredient
        ⟨0, .Herb, 1, .normal⟩).remove_ingredient
        ⟨0, .Herb, 1, .normal⟩).remove_ingredient
        ⟨0, .Herb, 1, .normal⟩).stock "Herb" = 0 := by
  exact ⟨by decide, by decide⟩

/-- Claim C8 as amended: removing an ingredient that is not present is
always a no-op, and removal is idempotent whenever the instance occurs at
most once in the inventory — in particular on every inventory the program
builds, since each `add_ingredient` call there appends a freshly created
instance. -/
theorem C8_remove_missing_noop_idempotent (b : Botanist) (i : Ingredient) :
    (b.holds i = false → b.remove_ingredient i = b)
  ∧ (b.occurrences i ≤ 1 →
      (b.remove_ingredient i).remove_ingredient i = b.remove_ingredient i) := by
  constructor
  · intro h
    unfold Botanist.holds at h
    unfold Botanist.remove_ingredient
    cases hl : lookupInv b.inventory i.get_name with
    | none => rfl
    | some l =>
        rw [hl] at h
        have hnot : i ∉ l := of_decide_eq_false h
        simp [hnot]
  · intro hocc
    unfold Botanist.occurrences at hocc
    cases hl : lookupInv b.inventory i.get_name with
    | none =>
        have hb : b.remove_ingredient i = b := by
          unfold Botanist.remove_ingredient
          rw [hl]
        rw [hb]
        exact hb
    | some l =>
        rw [hl] at hocc
        change l.count i ≤ 1 at hocc
        by_cases hm : i ∈ l
        · have h0 : l.count i ≠ 0 := fun h0 => (List.count_eq_zero.mp h0) hm
          have hcount : l.count i = 1 := by omega
          have hb1 : b.remove_ingredient i
              = ⟨setInv b.inventory i.get_name (removeFirst l i)⟩ := by
            unfold Botanist.remove_ingredient
            rw [hl]
            simp [hm]
          have hlook : lookupInv (setInv b.inventory i.get_name
              (removeFirst l i)) i.get_name = some (removeFirst l i) := by
            rw [lookupInv_setInv_self, hl]
            rfl
          have hzero : (removeFirst l i).count i = 0 := by
            rw [count_removeFirst l i hm, hcount]
          have hnotmem : i ∉ removeFirst l i := List.count_eq_zero.mp hzero
          rw [hb1]
          unfold Botanist.remove_ingredient
          rw [hlook]
          simp [hnotmem]
        · have hb : b.remove_ingredient i = b := by
            unfold Botanist.remove_ingredient
            rw [hl]
            simp [hm]
          rw [hb]
          exact hb

/-- Witness for C8: removing an absent Mushroom instance from a one-Root
inventory is a no-op, and doing it twice changes nothing either. -/
theorem C8_witness :
    (Botanist.init.add_ingredient ⟨5, .Root, 2, .premium⟩).remove_ingredient
        ⟨6, .Mushroom, 1, .normal⟩
      = Botanist.init.add_ingredient ⟨5, .Root, 2, .premium⟩
  ∧ ((Botanist.init.add_ingredient ⟨5, .Root, 2, .premium⟩).remove_ingredient
        ⟨6, .Mushroom, 1, .normal⟩).remove_ingredient ⟨6, .Mushroom, 1, .normal⟩
      = (Botanist.init.add_ingredient ⟨5, .Root, 2, .premium⟩).remove_ingredient
        ⟨6, .Mushroom, 1, .normal⟩ := by
  constructor
  · exact (C8_remove_missing_noop_idempotent _ _).1 (by decide)
  · exact (C8_remove_missing_noop_idempotent _ _).2 (by decide)

/-- Claim C9: starting from any nonnegative budget (in particular the
reset all-zero budget of every allocation pass), the per-quality values
stay nonnegative through `consume_ingredient` and through the successive
consumption calls of a pass: a tier is only ever charged when its
remaining budget covers the cost, and each tier can only decrease. -/
theorem C9_budget_nonnegative :
    (∀ (s : Sorcerer) (n : Node) (g : Graph) (hu : Quality → Int) r,
      s.consume_ingredient n g hu = .ok r →
      (∀ q, 0 ≤ hu q) → ∀ q, 0 ≤ r.2 q ∧ r.2 q ≤ hu q)
  ∧ (∀ (l : List Node) (s : Sorcerer) (g : Graph) (hu : Quality → Int) r,
      consumePreds l s g hu = .ok r →
      (∀ q, 0 ≤ hu q) → ∀ q, 0 ≤ r.2 q) := by
  constructor
  · intro s n g hu r h h0 q
    have hq := consumeLoop_budget (succsOf g n) s hu r h q
    exact ⟨hq.2 (h0 q), hq.1⟩
  · intro l s g hu r h h0 q
    exact (consumePreds_budget l s g hu r h q).2 (h0 q)

/-- Witness for C9 on a trivial consumption. -/
theorem C9_witness : (0 : Int) ≤ 0 ∧ (0 : Int) ≤ 0 :=
  C9_budget_nonnegative.1 Sorcerer.init (Node.potion .HealingPotion) ⟨[], []⟩
    (fun _ => 0) (Sorcerer.init, fun _ => 0) rfl (fun _ => le_refl 0)
    Quality.normal

/-- Claim C10: `Ingredient.get_cost` is quantity times the per-quality
unit cost with normal 1, premium 3, legendary 5; cost is multiplicative
in quantity, and a quantity-2 premium ingredient costs 6, twice a
quantity-1 premium one. -/
theorem C10_cost_multiplicative (i : Ingredient) (k : IngredientKind)
    (q : Quality) (n m id1 id2 : Nat) :
    i.get_cost = i.quantity * quality_costs i.quality
  ∧ quality_costs .normal = 1
  ∧ quality_costs .premium = 3
  ∧ quality_costs .legendary = 5
  ∧ (Ingredient.mk id1 k (n * m) q).get_cost
      = n * (Ingredient.mk id2 k m q).get_cost
  ∧ (Ingredient.mk 0 .Herb 2 .premium).get_cost
      = 2 * (Ingredient.mk 1 .Herb 1 .premium).get_cost
  ∧ (Ingredient.mk 0 .Herb 2 .premium).get_cost = 6 := by
  refine ⟨rfl, rfl, rfl, rfl, ?_, rfl, rfl⟩
  simp [Ingredient.get_cost, Nat.mul_assoc]

end Potions
